import Mathlib

/-!
es-query-csv: the streaming export pipeline of `main.go`

A shallow embedding of the action of `main.go`: the query selection, the field
list, the scroll loop that feeds the `hits` channel, the transformation loop of
a worker, the goroutine that writes the CSV file, and the `errgroup` wait that
decides how the run ends.

Library behaviour that `main.go` relies on is written down next to the
definition that uses it:

* `encoding/json`: `Unmarshal` into a non-nil `map[string]interface{}` keeps the
  entries the map already has and assigns the members of the object one by one;
  a number that `float64` cannot hold is stored as nil and reported as an error
  once the whole object is stored; input that is not valid JSON is rejected
  before anything is stored; the JSON value `null` sets the map to nil; any
  other valid JSON value is a type error and leaves the map as it is.
* `fmt`: `%v` prints a nil interface as `<nil>`.
* `encoding/csv`: `Write` puts the encoded record into the buffer of the writer,
  `Flush` hands the buffer to the file and reports nothing: when the file
  refuses the text, the records stay in the buffer, and `main.go` never asks
  `w.Error()`.  A record stands for its encoded line.
* the scroll of the client library: a hit carries `Source`, a pointer that is
  nil when the response has no `_source` for the hit.
* `errgroup`: `Wait` returns the first non-nil error returned by a member, and
  that first error cancels the context.
-/

namespace ElasticQueryExport

/-! ## Values and documents -/

/-- A value held in the decoded `map[string]interface{}`.  Numbers, arrays and
nested objects are carried together with the text `%v` prints for them. -/
inductive Value where
  | nil
  | bool (b : Bool)
  | float64 (text : String)
  | string (s : String)
  | composite (text : String)
  deriving DecidableEq, Repr

/-- The text of `fmt.Sprintf("%v", v)`. -/
def sprintV : Value → String
  | .nil => "<nil>"
  | .bool true => "true"
  | .bool false => "false"
  | .float64 text => text
  | .string s => s
  | .composite text => text

/-- One `json.RawMessage` taken from the `hits` channel, by what `json.Unmarshal`
finds in it. -/
inductive RawMessage where
  /-- Bytes that are not valid JSON.  The scroll goroutine never sends such a
  message: a `_source` is cut out of a response that has been parsed as JSON. -/
  | malformed
  /-- The JSON value `null`. -/
  | null
  /-- A JSON object that decodes, its members in the order of the text. -/
  | object (members : List (String × Value))
  /-- A JSON object with a number that `float64` cannot hold, such as `1e999`:
  the members in the order of the text, as `Unmarshal` stores them, nil in the
  place of such a number. -/
  | objectOutOfRange (stored : List (String × Value))
  /-- Valid JSON that is neither an object nor `null` (array, string, number, boolean). -/
  | other
  deriving DecidableEq, Repr

/-- The errors that occur in a run. -/
inductive Error where
  /-- `json.Unmarshal`: a syntax error. -/
  | jsonInvalid
  /-- `json.Unmarshal`: a value cannot be stored into the Go type it meets. -/
  | jsonType
  /-- `csv.Writer.Write` failed. -/
  | csvWrite
  /-- An error returned by the backend for a page fetch. -/
  | backend (msg : String)
  /-- The value of `ctx.Err()` once the context is cancelled. -/
  | canceled
  deriving DecidableEq, Repr

/-- The variable `document`, a `map[string]interface{}`: the entries as an
association list, the newest assignment of a key first.  The nil map and the
empty map are both `[]`. -/
abbrev Document := List (String × Value)

/-- The assignment `document[key] = v`. -/
def Document.set (document : Document) (key : String) (v : Value) : Document :=
  (key, v) :: document.filter (fun kv => kv.1 != key)

/-- The index expression `document[field]`: the nil interface when the key is absent. -/
def Document.get (document : Document) (field : String) : Value :=
  match document.lookup field with
  | some v => v
  | none => Value.nil

/-- The call `json.Unmarshal(hit, &document)`: the map afterwards and the error returned. -/
def unmarshal (hit : RawMessage) (document : Document) : Document × Option Error :=
  match hit with
  | .malformed => (document, some Error.jsonInvalid)
  | .null => ([], none)
  | .object members => (members.foldl (fun m kv => m.set kv.1 kv.2) document, none)
  | .objectOutOfRange stored =>
    (stored.foldl (fun m kv => m.set kv.1 kv.2) document, some Error.jsonType)
  | .other => (document, some Error.jsonType)

/-- A record of the CSV file, also the element type of the `csvout` channel. -/
abbrev Record := List String

/-! ## The transformation worker (lines 145-170) -/

/-- The inner loop of lines 156-158: one `append` per entry of `configFields`. -/
def projectFields (configFields : List String) (document : Document) : Record :=
  configFields.foldl (fun csvdata field => csvdata ++ [sprintV (document.get field)]) []

/-- What a worker goroutine has done when it returns. -/
structure WorkerResult where
  /-- The rows sent to `csvout`, in order. -/
  sent : List Record
  /-- The errors printed with `fmt.Printf`, in order. -/
  printed : List Error
  /-- The value returned to the errgroup: `none` is `nil`. -/
  ret : Option Error
  /-- The variable `document` at the end. -/
  document : Document
  deriving DecidableEq, Repr

/-- The body of one worker goroutine.  `document` is the value of the variable
declared before the loop; each element of the list is a message received from
`hits` together with whether `ctx.Done()` is ready at the `select` after that
message.  The end of the list is the closed channel. -/
def worker (configFields : List String) (document : Document) :
    List (RawMessage × Bool) → WorkerResult
  | [] => { sent := [], printed := [], ret := none, document := document }
  | (hit, ctxDone) :: rest =>
    let decoded := unmarshal hit document
    let csvdata := projectFields configFields decoded.1
    if ctxDone then
      { sent := [csvdata], printed := decoded.2.toList, ret := some Error.canceled,
        document := decoded.1 }
    else
      let r := worker configFields decoded.1 rest
      { r with sent := csvdata :: r.sent, printed := decoded.2.toList ++ r.printed }

/-- A worker that starts with the nil map and never sees the context cancelled. -/
def freshWorker (configFields : List String) (hits : List RawMessage) : WorkerResult :=
  worker configFields [] (hits.map (fun hit => (hit, false)))

/-! ## Query selection and field list (lines 49-51, 61-68, 84-91) -/

/-- The queries of the client library that the action can build. -/
inductive Query where
  | rawString (q : String)
  | queryString (q : String)
  | matchAll
  deriving DecidableEq, Repr

/-- The selection of `esQuery`, lines 61-68. -/
def esQuery (configRawQuery configQuery : String) : Query :=
  if configRawQuery != "" then
    Query.rawString configQuery
  else if configQuery != "" then
    Query.queryString configQuery
  else
    Query.matchAll

/-- Cut a text at every occurrence of `sep`; a text with `n` separators gives `n + 1` parts. -/
def splitChars (sep : Char) : List Char → List (List Char)
  | [] => [[]]
  | c :: cs =>
    if c = sep then
      [] :: splitChars sep cs
    else
      match splitChars sep cs with
      | [] => [[c]]
      | part :: parts => (c :: part) :: parts

/-- The call `strings.Split(s, ",")`. -/
def stringsSplit (s : String) : List String :=
  (splitChars ',' s.data).map String.mk

/-- The value of `*configFields` after lines 49-51.  `fieldOpts` holds the values of the
repeated `-f` option; the nil slice of an option that was not given is `[]`. -/
def configFields (configFieldlist : String) (fieldOpts : List String) : List String :=
  if configFieldlist != "" then stringsSplit configFieldlist else fieldOpts

/-- The source filter put on the scroll request, lines 85-91: `none` when
`*configFields` is nil, and then the backend returns every field of a document. -/
def fetchSourceIncludes (configFields : List String) : Option (List String) :=
  if configFields.isEmpty then none
  else some (configFields.foldl (fun includes field => includes ++ [field]) [])

/-! ## The scroll loop (lines 79-114) -/

/-- The answer of one `scroll.Do(ctx)`.  A page lists `hit.Source` for each of its
hits: `none` is the nil pointer of a hit that has no `_source`. -/
inductive ScrollResult where
  | page (hits : List (Option RawMessage))
  | eof
  | failure (e : Error)
  deriving DecidableEq, Repr

/-- What the scroll goroutine has done when it ends. -/
structure CursorResult where
  /-- The messages sent to `hits`, in order. -/
  sent : List RawMessage
  /-- Whether `hits` is closed; `defer close(hits)` runs at every return and when
  the goroutine panics. -/
  closed : Bool
  /-- Whether the goroutine ended in the nil pointer dereference of `*hit.Source`
  (line 104), which ends the whole process. -/
  crashed : Bool
  /-- The value returned to the errgroup: `none` is `nil`, and also stands when the
  goroutine crashed and returned nothing. -/
  ret : Option Error
  deriving DecidableEq, Repr

/-- The loop of lines 103-105 over one page: the messages sent to `hits`, and
whether the loop met a nil `hit.Source`, where `*hit.Source` panics. -/
def sendHits : List (Option RawMessage) → List RawMessage × Bool
  | [] => ([], false)
  | none :: _ => ([], true)
  | some source :: rest =>
    let r := sendHits rest
    (source :: r.1, r.2)

/-- The body of the scroll goroutine.  Each element of the list is the answer of
one `scroll.Do`, together with whether `ctx.Done()` is ready at the `select` at
the end of that iteration.  A scroll that has no answer left answers `io.EOF`. -/
def sourceCursor : List (ScrollResult × Bool) → CursorResult
  | [] => { sent := [], closed := true, crashed := false, ret := none }
  | (.eof, _) :: _ => { sent := [], closed := true, crashed := false, ret := none }
  | (.failure e, _) :: _ => { sent := [], closed := true, crashed := false, ret := some e }
  | (.page hits, ctxDone) :: rest =>
    let pushed := sendHits hits
    if pushed.2 then
      { sent := pushed.1, closed := true, crashed := true, ret := none }
    else if ctxDone then
      { sent := pushed.1, closed := true, crashed := false, ret := some Error.canceled }
    else
      let r := sourceCursor rest
      { r with sent := pushed.1 ++ r.sent }

/-! ## The goroutine that writes the file (lines 118-141) -/

/-- The calls the writing goroutine makes on the CSV writer, on standard output
and on the progress bar. -/
inductive SinkCall where
  | write (record : Record)
  | printError
  | flush
  | increment
  deriving DecidableEq, Repr

/-- The CSV writer, the file below it and the progress bar. -/
structure SinkState where
  /-- The records that have reached `outfile`. -/
  file : List Record
  /-- The records in the buffer of the CSV writer. -/
  buffer : List Record
  /-- The number of `bar.Increment()` calls. -/
  progress : Nat
  /-- Every call made so far, in order. -/
  calls : List SinkCall
  deriving DecidableEq, Repr

/-- The state after `csv.NewWriter(outfile)` on the file just created. -/
def SinkState.init : SinkState :=
  { file := [], buffer := [], progress := 0, calls := [] }

/-- The statement `if err := w.Write(record); err != nil { fmt.Printf(...) }`.  `ok` says
whether `Write` returns nil; a record whose `Write` fails does not enter the buffer. -/
def SinkState.write (s : SinkState) (ok : Bool) (record : Record) : SinkState :=
  if ok then
    { s with buffer := s.buffer ++ [record], calls := s.calls ++ [SinkCall.write record] }
  else
    { s with calls := s.calls ++ [SinkCall.write record, SinkCall.printError] }

/-- What happens to the buffer in one `w.Flush()`.  The call itself returns nothing. -/
inductive FlushResult where
  /-- The file takes the whole buffer. -/
  | done
  /-- The write to the file fails after the first `reached` records of the buffer. -/
  | failed (reached : Nat)
  deriving DecidableEq, Repr

/-- The call `w.Flush()`, line 136.  Nothing is checked or printed after it. -/
def SinkState.flush (s : SinkState) (result : FlushResult) : SinkState :=
  match result with
  | FlushResult.done =>
    { s with file := s.file ++ s.buffer, buffer := [], calls := s.calls ++ [SinkCall.flush] }
  | FlushResult.failed reached =>
    { s with file := s.file ++ s.buffer.take reached, buffer := s.buffer.drop reached,
             calls := s.calls ++ [SinkCall.flush] }

/-- The call `bar.Increment()`. -/
def SinkState.increment (s : SinkState) : SinkState :=
  { s with progress := s.progress + 1, calls := s.calls ++ [SinkCall.increment] }

/-- The loop `for csvdata := range csvout`, lines 130-139.  `i` is the number of
`Write` calls made before; `writeOk i` tells whether `Write` call number `i`
returns nil, `flushResult i` what the `Flush` after it does. -/
def sinkLoop (writeOk : Nat → Bool) (flushResult : Nat → FlushResult) :
    Nat → SinkState → List Record → SinkState
  | _, s, [] => s
  | i, s, csvdata :: rest =>
    sinkLoop writeOk flushResult (i + 1)
      (((s.write (writeOk i) csvdata).flush (flushResult i)).increment) rest

/-- The header built in lines 122-125. -/
def csvheader (configFields : List String) : Record :=
  configFields.foldl (fun header field => header ++ [field]) []

/-- The writing goroutine after it has received `rows` from `csvout`.  Nothing
closes `csvout`, so the goroutine then waits for the next row. -/
def sinkWriter (writeOk : Nat → Bool) (flushResult : Nat → FlushResult)
    (configFields : List String) (rows : List Record) : SinkState :=
  sinkLoop writeOk flushResult 1
    (SinkState.init.write (writeOk 0) (csvheader configFields)) rows

/-- The results of a run in which no `Write` fails. -/
def allWritesOk : Nat → Bool := fun _ => true

/-- The results of a run in which no `Flush` fails. -/
def allFlushesOk : Nat → FlushResult := fun _ => FlushResult.done

/-! ## The errgroup and the end of the action (lines 59, 173-178) -/

/-- The errgroup: the first error a member returned.  The context `ctx` is
cancelled from the moment this is set. -/
structure Group where
  err : Option Error
  deriving DecidableEq, Repr

/-- A function started with `g.Go` returns `r`. -/
def Group.memberDone (g : Group) (r : Option Error) : Group :=
  match g.err, r with
  | none, some e => { err := some e }
  | _, _ => g

/-- The value of `g.Wait()` when the members return `returns`, in this order. -/
def errgroupWait (returns : List (Option Error)) : Option Error :=
  (returns.foldl Group.memberDone { err := none }).err

/-- How the action ends. -/
inductive Outcome where
  /-- The action reaches `bar.FinishPrint("Done")`. -/
  | done
  /-- The action ends in `panic(err)`, line 175. -/
  | panic (e : Error)
  /-- The process dies of the nil pointer dereference in the scroll goroutine. -/
  | crash
  deriving DecidableEq, Repr

/-- Lines 173-178. -/
def finish (returns : List (Option Error)) : Outcome :=
  match errgroupWait returns with
  | some e => Outcome.panic e
  | none => Outcome.done

/-- The end of a run: how the action ends and what the writing goroutine has done
with the rows it has received. -/
structure RunResult where
  outcome : Outcome
  sink : SinkState
  deriving DecidableEq, Repr

/-- The action from line 59 on: whether the scroll goroutine crashed, the returns
of the members of the errgroup in the order they occur, the rows the writing
goroutine receives, and the results of its `Write` and `Flush` calls.  The
writing goroutine is started with `go`, not with `g.Go`. -/
def action (configFields : List String) (crashed : Bool) (returns : List (Option Error))
    (rows : List Record) (writeOk : Nat → Bool) (flushResult : Nat → FlushResult) :
    RunResult :=
  { outcome := if crashed then Outcome.crash else finish returns,
    sink := sinkWriter writeOk flushResult configFields rows }

/-- The records handed to `w.Write` among a sequence of calls, in order. -/
def writtenRecords : List SinkCall → List Record
  | [] => []
  | SinkCall.write record :: rest => record :: writtenRecords rest
  | _ :: rest => writtenRecords rest

/-! ## Auxiliary facts -/

theorem foldl_append_singleton {α β : Type} (g : α → β) (l : List α) (acc : List β) :
    l.foldl (fun out x => out ++ [g x]) acc = acc ++ l.map g := by
  induction l generalizing acc with
  | nil => simp
  | cons x xs ih => simp [List.foldl_cons, ih]

theorem projectFields_eq_map (fields : List String) (document : Document) :
    projectFields fields document = fields.map (fun field => sprintV (document.get field)) := by
  unfold projectFields
  rw [foldl_append_singleton (fun field => sprintV (document.get field))]
  simp

theorem csvheader_eq (fields : List String) : csvheader fields = fields := by
  unfold csvheader
  rw [foldl_append_singleton (fun field => field)]
  simp

theorem projectFields_length (fields : List String) (document : Document) :
    (projectFields fields document).length = fields.length := by
  rw [projectFields_eq_map]
  simp

theorem worker_sent_length (fields : List String) (hits : List (RawMessage × Bool)) :
    ∀ (document : Document) (row : Record),
      row ∈ (worker fields document hits).sent → row.length = fields.length := by
  induction hits with
  | nil =>
    intro document row h
    simp [worker] at h
  | cons head rest ih =>
    intro document row h
    obtain ⟨hit, ctxDone⟩ := head
    cases ctxDone with
    | true =>
      simp [worker] at h
      rw [h]
      exact projectFields_length _ _
    | false =>
      simp [worker] at h
      rcases h with h | h
      · rw [h]
        exact projectFields_length _ _
      · exact ih _ _ h

theorem sendHits_map_some (documents : List RawMessage) :
    sendHits (documents.map some) = (documents, false) := by
  induction documents with
  | nil => rfl
  | cons d rest ih => simp [sendHits, ih]

theorem sourceCursor_pages_then_failure (pages : List (List RawMessage)) (e : Error)
    (seen : Bool) (later : List (ScrollResult × Bool)) :
    sourceCursor (pages.map (fun documents => (ScrollResult.page (documents.map some), false))
        ++ (ScrollResult.failure e, seen) :: later)
      = { sent := pages.flatten, closed := true, crashed := false, ret := some e } := by
  induction pages with
  | nil => simp [sourceCursor]
  | cons documents rest ih => simp [sourceCursor, sendHits_map_some, ih]

theorem writtenRecords_append (xs ys : List SinkCall) :
    writtenRecords (xs ++ ys) = writtenRecords xs ++ writtenRecords ys := by
  induction xs with
  | nil => simp [writtenRecords]
  | cons c rest ih => cases c <;> simp [writtenRecords, ih]

theorem sinkLoop_written (writeOk : Nat → Bool) (flushResult : Nat → FlushResult)
    (rows : List Record) :
    ∀ (i : Nat) (s : SinkState),
      writtenRecords (sinkLoop writeOk flushResult i s rows).calls
        = writtenRecords s.calls ++ rows := by
  induction rows with
  | nil => intro i s; simp [sinkLoop]
  | cons r rest ih =>
    intro i s
    rw [sinkLoop, ih]
    cases writeOk i <;> cases flushResult i <;>
      simp [SinkState.write, SinkState.flush, SinkState.increment, writtenRecords_append,
        writtenRecords]

theorem sinkLoop_progress (writeOk : Nat → Bool) (flushResult : Nat → FlushResult)
    (rows : List Record) :
    ∀ (i : Nat) (s : SinkState),
      (sinkLoop writeOk flushResult i s rows).progress = s.progress + rows.length := by
  induction rows with
  | nil => intro i s; simp [sinkLoop]
  | cons r rest ih =>
    intro i s
    rw [sinkLoop, ih]
    cases writeOk i <;> cases flushResult i <;>
      simp [SinkState.write, SinkState.flush, SinkState.increment] <;> omega

theorem sinkLoop_count (writeOk : Nat → Bool) (flushResult : Nat → FlushResult)
    (c : SinkCall) (hc : c = SinkCall.flush ∨ c = SinkCall.increment) (rows : List Record) :
    ∀ (i : Nat) (s : SinkState),
      (sinkLoop writeOk flushResult i s rows).calls.count c
        = s.calls.count c + rows.length := by
  induction rows with
  | nil => intro i s; simp [sinkLoop]
  | cons r rest ih =>
    intro i s
    rw [sinkLoop, ih]
    rcases hc with hc | hc <;> subst hc <;> cases writeOk i <;> cases flushResult i <;>
      simp [SinkState.write, SinkState.flush, SinkState.increment, List.count_append,
        List.count_cons] <;> omega

theorem sinkLoop_snoc (writeOk : Nat → Bool) (flushResult : Nat → FlushResult)
    (pre : List Record) (r : Record) :
    ∀ (i : Nat) (s : SinkState),
      sinkLoop writeOk flushResult i s (pre ++ [r])
        = ((((sinkLoop writeOk flushResult i s pre).write (writeOk (i + pre.length)) r).flush
            (flushResult (i + pre.length))).increment) := by
  induction pre with
  | nil => intro i s; simp [sinkLoop]
  | cons p rest ih =>
    intro i s
    have hidx : i + 1 + rest.length = i + (p :: rest).length := by
      simp only [List.length_cons]; omega
    have hstep : sinkLoop writeOk flushResult i s (p :: rest ++ [r])
        = sinkLoop writeOk flushResult (i + 1)
            (((s.write (writeOk i) p).flush (flushResult i)).increment) (rest ++ [r]) := by
      simp [sinkLoop]
    have hpre : sinkLoop writeOk flushResult i s (p :: rest)
        = sinkLoop writeOk flushResult (i + 1)
            (((s.write (writeOk i) p).flush (flushResult i)).increment) rest := by
      simp [sinkLoop]
    rw [hstep, hpre, ih, hidx]

theorem sinkLoop_allOk_snoc (pre : List Record) (r : Record) :
    ∀ (i : Nat) (s : SinkState),
      (sinkLoop allWritesOk allFlushesOk i s (pre ++ [r])).buffer = []
      ∧ (sinkLoop allWritesOk allFlushesOk i s (pre ++ [r])).file
          = s.file ++ s.buffer ++ pre ++ [r] := by
  induction pre with
  | nil =>
    intro i s
    simp [sinkLoop, allWritesOk, allFlushesOk, SinkState.write, SinkState.flush,
      SinkState.increment]
  | cons p rest ih =>
    intro i s
    have h := ih (i + 1) (((s.write (allWritesOk i) p).flush (allFlushesOk i)).increment)
    have hstep : sinkLoop allWritesOk allFlushesOk i s (p :: rest ++ [r])
        = sinkLoop allWritesOk allFlushesOk (i + 1)
            (((s.write (allWritesOk i) p).flush (allFlushesOk i)).increment)
            (rest ++ [r]) := by
      simp [sinkLoop]
    rw [hstep]
    refine ⟨h.1, ?_⟩
    rw [h.2]
    simp [allWritesOk, allFlushesOk, SinkState.write, SinkState.flush, SinkState.increment]

theorem lookup_filter_ne (document : Document) (key field : String) (h : field ≠ key) :
    (document.filter (fun kv => kv.1 != key)).lookup field = document.lookup field := by
  induction document with
  | nil => rfl
  | cons kv rest ih =>
    obtain ⟨k, v⟩ := kv
    by_cases hk : k = key
    · subst hk
      have hne : (field == k) = false := by simpa using h
      simp [List.filter_cons, List.lookup_cons, hne, ih]
    · have hk2 : (k != key) = true := by simpa using hk
      simp only [List.filter_cons, hk2, if_true, List.lookup_cons]
      cases hfk : (field == k) with
      | true => rfl
      | false => simpa using ih

theorem get_set (document : Document) (key field : String) (v : Value) :
    (document.set key v).get field = if field = key then v else document.get field := by
  unfold Document.get Document.set
  by_cases h : field = key
  · subst h
    simp [List.lookup_cons]
  · have hne : (field == key) = false := by simpa using h
    simp only [List.lookup_cons, hne, h, if_false]
    rw [lookup_filter_ne document key field h]

theorem get_foldl_set_nil (field : String) (members : List (String × Value)) :
    ∀ document : Document, document.get field = Value.nil →
      (∀ v, (field, v) ∈ members → v = Value.nil) →
      (members.foldl (fun m kv => m.set kv.1 kv.2) document).get field = Value.nil := by
  induction members with
  | nil => intro document hd _; simpa using hd
  | cons kv rest ih =>
    intro document hd hall
    obtain ⟨k, v⟩ := kv
    simp only [List.foldl_cons]
    apply ih
    · rw [get_set]
      by_cases h : field = k
      · subst h
        simp only [if_true]
        exact hall v (by simp)
      · simpa [h] using hd
    · intro w hw
      exact hall w (by simp [hw])

theorem freshWorker_single_null (fields : List String) (field : String) (i : Nat)
    (members : List (String × Value)) (hi : fields[i]? = some field)
    (hall : ∀ v, (field, v) ∈ members → v = Value.nil) :
    (freshWorker fields [RawMessage.object members]).sent.map (fun row => row[i]?)
      = [some "<nil>"] := by
  have hget := get_foldl_set_nil field members [] rfl hall
  simp [freshWorker, worker, unmarshal, projectFields_eq_map, List.getElem?_map, hi, hget,
    sprintV]

theorem sinkLoop_calls_extend (writeOk : Nat → Bool) (flushResult : Nat → FlushResult)
    (rows : List Record) :
    ∀ (i : Nat) (s : SinkState),
      ∃ more, (sinkLoop writeOk flushResult i s rows).calls = s.calls ++ more := by
  induction rows with
  | nil => intro i s; exact ⟨[], by simp [sinkLoop]⟩
  | cons r rest ih =>
    intro i s
    obtain ⟨more, hmore⟩ :=
      ih (i + 1) (((s.write (writeOk i) r).flush (flushResult i)).increment)
    rw [sinkLoop, hmore]
    cases writeOk i <;> cases flushResult i <;>
      simp [SinkState.write, SinkState.flush, SinkState.increment]

theorem sinkWriter_first_call (writeOk : Nat → Bool) (flushResult : Nat → FlushResult)
    (fields : List String) (rows : List Record) :
    (sinkWriter writeOk flushResult fields rows).calls.head?
      = some (SinkCall.write fields) := by
  obtain ⟨more, hmore⟩ :=
    sinkLoop_calls_extend writeOk flushResult rows 1
      (SinkState.init.write (writeOk 0) (csvheader fields))
  unfold sinkWriter
  rw [hmore, csvheader_eq]
  cases writeOk 0 <;> simp [SinkState.write, SinkState.init]

theorem sinkWriter_written (writeOk : Nat → Bool) (flushResult : Nat → FlushResult)
    (fields : List String) (rows : List Record) :
    writtenRecords (sinkWriter writeOk flushResult fields rows).calls = fields :: rows := by
  unfold sinkWriter
  rw [sinkLoop_written, csvheader_eq]
  cases writeOk 0 <;> simp [SinkState.write, SinkState.init, writtenRecords]

theorem sinkWriter_snoc (writeOk : Nat → Bool) (flushResult : Nat → FlushResult)
    (fields : List String) (pre : List Record) (r : Record) :
    sinkWriter writeOk flushResult fields (pre ++ [r])
      = ((((sinkWriter writeOk flushResult fields pre).write (writeOk (1 + pre.length)) r).flush
          (flushResult (1 + pre.length))).increment) := by
  unfold sinkWriter
  rw [sinkLoop_snoc]

theorem sinkWriter_allOk_snoc (fields : List String) (pre : List Record) (r : Record) :
    (sinkWriter allWritesOk allFlushesOk fields (pre ++ [r])).buffer = []
    ∧ (sinkWriter allWritesOk allFlushesOk fields (pre ++ [r])).file
        = fields :: (pre ++ [r]) := by
  have h := sinkLoop_allOk_snoc pre r 1
    (SinkState.init.write (allWritesOk 0) (csvheader fields))
  unfold sinkWriter
  refine ⟨h.1, ?_⟩
  rw [h.2, csvheader_eq]
  simp [allWritesOk, SinkState.write, SinkState.init]

theorem sinkWriter_allOk_all (fields : List String) (rows : List Record) :
    (sinkWriter allWritesOk allFlushesOk fields rows).file
        ++ (sinkWriter allWritesOk allFlushesOk fields rows).buffer
      = fields :: rows := by
  rcases List.eq_nil_or_concat rows with h | ⟨pre, r, h⟩
  · subst h
    simp [sinkWriter, sinkLoop, allWritesOk, SinkState.write, SinkState.init, csvheader_eq]
  · rw [List.concat_eq_append] at h
    subst h
    have h2 := sinkWriter_allOk_snoc fields pre r
    rw [h2.1, h2.2]
    simp

/-! ## The claims -/

/-- C1, evaluated on the code: a worker that has decoded a document with field `a`
keeps that entry in `document`, and the row for the next document, which decodes and
has no field `a`, shows the old text `x` in the column of `a`, not `<nil>`. The
worker still returns nil. -/
theorem worker_keeps_stale_value :
    (freshWorker ["a"]
        [RawMessage.object [("a", Value.string "x")],
         RawMessage.object [("b", Value.string "y")]]).sent = [["x"], ["x"]]
    ∧ (freshWorker ["a"]
        [RawMessage.object [("a", Value.string "x")],
         RawMessage.object [("b", Value.string "y")]]).ret = none
    ∧ (freshWorker ["a"] [RawMessage.object [("b", Value.string "y")]]).sent = [["<nil>"]] := by
  decide

/-- C2, evaluated on the code: of three messages the second is valid JSON that
does not decode into the map (an array); the worker prints the error and sends
three rows, the second one built from the map left by the first message, and
returns nil. A single object with a number out of range is reported and gives a
row as well. -/
theorem worker_sends_row_for_undecodable :
    freshWorker ["a"]
        [RawMessage.object [("a", Value.string "x")],
         RawMessage.other,
         RawMessage.object [("a", Value.string "z")]]
      = { sent := [["x"], ["x"], ["z"]],
          printed := [Error.jsonType],
          ret := none,
          document := [("a", Value.string "z")] }
    ∧ freshWorker ["a"] [RawMessage.objectOutOfRange [("a", Value.nil)]]
      = { sent := [["<nil>"]],
          printed := [Error.jsonType],
          ret := none,
          document := [("a", Value.nil)] } := by
  decide

/-- C3, evaluated on the code: when the first fetch answers end of data, nothing
is sent to `hits`, every member of the errgroup returns nil and the action ends
with `Done`, but the header is only in the buffer of the CSV writer and the file
holds no record, because `Flush` is called inside the row loop only. -/
theorem empty_source_leaves_file_empty :
    (sourceCursor [(ScrollResult.eof, false)]).sent = []
    ∧ action ["a"] (sourceCursor [(ScrollResult.eof, false)]).crashed
        ((sourceCursor [(ScrollResult.eof, false)]).ret
          :: List.replicate 5 (worker ["a"] [] []).ret)
        (worker ["a"] [] []).sent allWritesOk allFlushesOk
      = { outcome := Outcome.done,
          sink := { file := [], buffer := [["a"]], progress := 0,
                    calls := [SinkCall.write ["a"]] } } := by
  decide

/-- C4: every row a worker sends to `csvout` has exactly as many entries as
`configFields`, for every value of `document` at the start, every sequence of
messages (decodable or not) and every cancellation pattern. -/
theorem worker_row_length (fields : List String) (document : Document)
    (hits : List (RawMessage × Bool)) (row : Record)
    (h : row ∈ (worker fields document hits).sent) : row.length = fields.length :=
  worker_sent_length fields hits document row h

theorem worker_row_length_witness :
    ["x", "old"] ∈ (worker ["a", "b"] [("b", Value.string "old")]
        [(RawMessage.malformed, false), (RawMessage.object [("a", Value.string "x")], true)]).sent
    ∧ (["x", "old"] : Record).length = (["a", "b"] : List String).length :=
  ⟨by decide,
   worker_row_length ["a", "b"] [("b", Value.string "old")]
     [(RawMessage.malformed, false), (RawMessage.object [("a", Value.string "x")], true)]
     ["x", "old"] (by decide)⟩

/-- C5, evaluated on the code: with a raw query given and no free-text query, the
raw-string query is built from the free-text input, so it holds the empty text
instead of the raw query. -/
theorem esQuery_raw_takes_free_text :
    esQuery "\x7b\"match_all\":\x7b\x7d\x7d" "" = Query.rawString ""
    ∧ esQuery "\x7b\"match_all\":\x7b\x7d\x7d" "level:error" = Query.rawString "level:error" := by
  decide

/-- C6, evaluated on the code: with neither field option given the field list is
nil, the scroll request carries no source filter, and for a document with field
`a` the worker sends the empty row; header and data line are both empty records. -/
theorem no_field_selected_exports_nothing :
    configFields "" [] = []
    ∧ fetchSourceIncludes (configFields "" []) = none
    ∧ (freshWorker (configFields "" []) [RawMessage.object [("a", Value.string "x")]]).sent = [[]]
    ∧ (sinkWriter allWritesOk allFlushesOk (configFields "" [])
        (freshWorker (configFields "" []) [RawMessage.object [("a", Value.string "x")]]).sent).file
        = [[], []] := by
  decide

/-- C7, evaluated on the code: the first page is fetched and holds a hit without
`_source` between two hits that have one. The scroll goroutine sends the first
document and then dereferences the nil `hit.Source`: the process dies, the later
document of the page is not sent, the second fetch, which fails with an error of
the backend, is never made, and the action does not end in a panic with that
error. With a source in every hit the goroutine sends both documents and returns
the error of the second fetch. -/
theorem sourceCursor_crashes_on_missing_source :
    sourceCursor
        [(ScrollResult.page
            [some (RawMessage.object [("a", Value.string "x")]), none,
             some (RawMessage.object [("a", Value.string "z")])], false),
         (ScrollResult.failure (Error.backend "boom"), false)]
      = { sent := [RawMessage.object [("a", Value.string "x")]],
          closed := true, crashed := true, ret := none }
    ∧ (action ["a"]
        (sourceCursor
          [(ScrollResult.page
              [some (RawMessage.object [("a", Value.string "x")]), none,
               some (RawMessage.object [("a", Value.string "z")])], false),
           (ScrollResult.failure (Error.backend "boom"), false)]).crashed
        [] [["x"]] allWritesOk allFlushesOk).outcome = Outcome.crash
    ∧ sourceCursor
        [(ScrollResult.page
            [some (RawMessage.object [("a", Value.string "x")]),
             some (RawMessage.object [("a", Value.string "z")])], false),
         (ScrollResult.failure (Error.backend "boom"), false)]
      = { sent := [RawMessage.object [("a", Value.string "x")],
                   RawMessage.object [("a", Value.string "z")]],
          closed := true, crashed := false, ret := some (Error.backend "boom") } := by
  decide

/-- C8, the claim as stated fails: with every `Write` returning nil and the file
refusing the text at `Flush`, the header and the row are still in the buffer after
the row has been handled, and nothing is printed. -/
theorem sinkWriter_failed_flush_keeps_records :
    sinkWriter allWritesOk (fun _ => FlushResult.failed 0) ["a"] [["x"]]
      = { file := [], buffer := [["a"], ["x"]], progress := 1,
          calls := [SinkCall.write ["a"], SinkCall.write ["x"], SinkCall.flush,
                    SinkCall.increment] }
    ∧ (sinkWriter allWritesOk (fun _ => FlushResult.failed 0) ["a"] [["x"]]).buffer ≠ [] := by
  decide

/-- C8 as amended: whatever the results of the `Write` and `Flush` calls, the
writing goroutine hands the header and then the rows to `w.Write` in the order
received, the header in its first call and once, and handling a row is one `Write`,
one `Flush` and one `Increment`, in this order. When no `Write` and no `Flush`
fails, the file and the buffer together hold the header followed by the rows
received, and once a row has been handled the buffer is empty and the file holds
the header and every row up to that one. -/
theorem sinkWriter_order_and_flush (writeOk : Nat → Bool) (flushResult : Nat → FlushResult)
    (fields : List String) (rows pre : List Record) (r : Record) :
    writtenRecords (sinkWriter writeOk flushResult fields rows).calls = fields :: rows
    ∧ (sinkWriter writeOk flushResult fields rows).calls.head? = some (SinkCall.write fields)
    ∧ sinkWriter writeOk flushResult fields (pre ++ [r])
        = ((((sinkWriter writeOk flushResult fields pre).write
              (writeOk (1 + pre.length)) r).flush (flushResult (1 + pre.length))).increment)
    ∧ (sinkWriter allWritesOk allFlushesOk fields rows).file
          ++ (sinkWriter allWritesOk allFlushesOk fields rows).buffer
        = fields :: rows
    ∧ (sinkWriter allWritesOk allFlushesOk fields (pre ++ [r])).buffer = []
    ∧ (sinkWriter allWritesOk allFlushesOk fields (pre ++ [r])).file
        = fields :: (pre ++ [r]) :=
  ⟨sinkWriter_written writeOk flushResult fields rows,
   sinkWriter_first_call writeOk flushResult fields rows,
   sinkWriter_snoc writeOk flushResult fields pre r,
   sinkWriter_allOk_all fields rows, (sinkWriter_allOk_snoc fields pre r).1,
   (sinkWriter_allOk_snoc fields pre r).2⟩

/-- C9: for every sequence of rows received and every pattern of failing `Write`
calls, header included, and of failing `Flush` calls, the writing goroutine hands
every row to `w.Write`, calls `Flush` and `bar.Increment` once per row, so the
progress counter equals the number of rows, and the action ends as it does when no
`Write` and no `Flush` fails. -/
theorem sinkWriter_survives_write_failures (writeOk : Nat → Bool)
    (flushResult : Nat → FlushResult) (fields : List String)
    (rows : List Record) (crashed : Bool) (returns : List (Option Error)) :
    writtenRecords (sinkWriter writeOk flushResult fields rows).calls = fields :: rows
    ∧ (sinkWriter writeOk flushResult fields rows).calls.count SinkCall.flush = rows.length
    ∧ (sinkWriter writeOk flushResult fields rows).calls.count SinkCall.increment
        = rows.length
    ∧ (sinkWriter writeOk flushResult fields rows).progress = rows.length
    ∧ (action fields crashed returns rows writeOk flushResult).outcome
        = (action fields crashed returns rows allWritesOk allFlushesOk).outcome := by
  refine ⟨sinkWriter_written writeOk flushResult fields rows, ?_, ?_, ?_, rfl⟩
  · unfold sinkWriter
    rw [sinkLoop_count writeOk flushResult SinkCall.flush (Or.inl rfl)]
    cases writeOk 0 <;> simp [SinkState.write, SinkState.init]
  · unfold sinkWriter
    rw [sinkLoop_count writeOk flushResult SinkCall.increment (Or.inr rfl)]
    cases writeOk 0 <;> simp [SinkState.write, SinkState.init]
  · unfold sinkWriter
    rw [sinkLoop_progress]
    cases writeOk 0 <;> simp [SinkState.write, SinkState.init]

/-- C10: for a field of the field list, a first document that carries the field
with the value `null` and a first document that does not carry the field both
give the text `<nil>` in every column of that field. -/
theorem null_and_missing_render_alike (fields : List String) (field : String) (i : Nat)
    (withNull withoutField : List (String × Value))
    (hi : fields[i]? = some field)
    (hpresent : (field, Value.nil) ∈ withNull)
    (hnull : ∀ v, (field, v) ∈ withNull → v = Value.nil)
    (habsent : ∀ v, (field, v) ∉ withoutField) :
    (freshWorker fields [RawMessage.object withNull]).sent.map (fun row => row[i]?)
      = [some "<nil>"]
    ∧ (freshWorker fields [RawMessage.object withoutField]).sent.map (fun row => row[i]?)
      = [some "<nil>"] := by
  have _ := hpresent
  exact ⟨freshWorker_single_null fields field i withNull hi hnull,
    freshWorker_single_null fields field i withoutField hi
      (fun v hv => absurd hv (habsent v))⟩

theorem null_and_missing_render_alike_witness :
    (["a", "b"] : List String)[1]? = some "b"
    ∧ ("b", Value.nil) ∈ [("a", Value.string "x"), ("b", Value.nil)]
    ∧ ((freshWorker ["a", "b"]
          [RawMessage.object [("a", Value.string "x"), ("b", Value.nil)]]).sent.map
          (fun row => row[1]?) = [some "<nil>"]
      ∧ (freshWorker ["a", "b"]
          [RawMessage.object [("a", Value.string "x")]]).sent.map
          (fun row => row[1]?) = [some "<nil>"]) :=
  ⟨by decide, by decide,
   null_and_missing_render_alike ["a", "b"] "b" 1
     [("a", Value.string "x"), ("b", Value.nil)] [("a", Value.string "x")]
     (by decide) (by decide)
     (by intro v hv; simpa using hv)
     (by intro v hv; simp at hv)⟩

end ElasticQueryExport
